import Mathlib

/-!
Verification development for the tree-sitter tokenization gateway
(`src/editor/tsgateway/src/lib.rs`).

The Rust module exposes four FFI entry points over tree-sitter:
structural tokenization (`ts_get_tokens`), query-based highlighting
(`ts_get_highlight_tokens`), full parse (`ts_parse`), and the paired
release operations (`ts_free_tokens`, `ts_free_result`).

The external tree-sitter library (grammars, parser, query engine) is
out of scope for the repository; it is modelled here as oracle inputs:
a parse result is an optional abstract syntax `Node`, a query match is
a list of named `Capture`s. Everything the repository itself computes
(the hash classifier, the canonical capture table, the clamp/swap span
normalization, the stack traversal, the emission loops, the failure
branches) is embedded faithfully from the source.
-/

namespace TSGateway

/-- UTF-8 bytes of a string, as natural numbers (models `str::as_bytes`;
this is the byte list underlying `String.toUTF8`). -/
def utf8Bytes (s : String) : List Nat :=
  (s.data.flatMap String.utf8EncodeChar).map (fun b => b.toNat)

/-- FNV-1a fallback classifier, from `hash_kind` in the source:
seed 2166136261; for each byte, XOR the byte in and multiply by
16777619 with 32-bit wraparound; finally mask with 0xFFFF. -/
def hash_kind (kind : String) : Nat :=
  ((utf8Bytes kind).foldl
    (fun h b => ((h ^^^ b) * 16777619) % 2 ^ 32) 2166136261) &&& 0xFFFF

/-- Modelled from the spec: the hash algorithm in the spec's own words —
start from seed `2166136261`; for each byte one XOR-then-multiply
(multiplier `16777619`) step modulo `2^32`; then truncate to 16 bits. -/
def fnv1aSpecStep : Nat → List Nat → Nat
  | h, [] => h
  | h, b :: bs => fnv1aSpecStep (((h ^^^ b) * 16777619) % 2 ^ 32) bs

/-- Modelled from the spec: full fallback classification per the spec's
description (hash the UTF-8 bytes, truncate to 16 bits). -/
def hashKindSpec (s : String) : Nat :=
  fnv1aSpecStep 2166136261 (utf8Bytes s) % 2 ^ 16

def TOKEN_FUNCTION : Nat := 1
def TOKEN_FUNCTION_CALL : Nat := 2
def TOKEN_TYPE : Nat := 3
def TOKEN_TYPE_BUILTIN : Nat := 4
def TOKEN_KEYWORD : Nat := 5
def TOKEN_STRING : Nat := 6
def TOKEN_CHARACTER : Nat := 7
def TOKEN_NUMBER : Nat := 8
def TOKEN_BOOLEAN : Nat := 9
def TOKEN_COMMENT : Nat := 10
def TOKEN_OPERATOR : Nat := 11
def TOKEN_PUNCTUATION : Nat := 12
def TOKEN_VARIABLE : Nat := 13
def TOKEN_CONSTANT : Nat := 14
def TOKEN_FIELD : Nat := 15
def TOKEN_PARAMETER : Nat := 16
def TOKEN_MACRO_ : Nat := 17
def TOKEN_TRAIT : Nat := 18
def TOKEN_DIRECTIVE : Nat := 19
def TOKEN_DECORATOR : Nat := 20

/-- Canonical capture-name table, from `map_capture_to_kind` in the
source (a `match` on the string, falling through to `hash_kind`). -/
def map_capture_to_kind (capture_name : String) : Nat :=
  if capture_name = "function" then TOKEN_FUNCTION
  else if capture_name = "function.call" then TOKEN_FUNCTION_CALL
  else if capture_name = "function.decorator" then TOKEN_DECORATOR
  else if capture_name = "type" then TOKEN_TYPE
  else if capture_name = "type.builtin" then TOKEN_TYPE_BUILTIN
  else if capture_name = "trait" then TOKEN_TRAIT
  else if capture_name = "keyword" then TOKEN_KEYWORD
  else if capture_name = "keyword.directive" then TOKEN_DIRECTIVE
  else if capture_name = "string" then TOKEN_STRING
  else if capture_name = "character" then TOKEN_CHARACTER
  else if capture_name = "number" then TOKEN_NUMBER
  else if capture_name = "boolean" then TOKEN_BOOLEAN
  else if capture_name = "constant" then TOKEN_CONSTANT
  else if capture_name = "constant.builtin" then TOKEN_CONSTANT
  else if capture_name = "comment" then TOKEN_COMMENT
  else if capture_name = "operator" then TOKEN_OPERATOR
  else if capture_name = "punctuation" then TOKEN_PUNCTUATION
  else if capture_name = "variable" then TOKEN_VARIABLE
  else if capture_name = "parameter" then TOKEN_PARAMETER
  else if capture_name = "field" then TOKEN_FIELD
  else if capture_name = "macro" then TOKEN_MACRO_
  else hash_kind capture_name

/-- The canonical capture names, in the order of the source's `match`. -/
def canonicalNames : List String :=
  ["function", "function.call", "function.decorator", "type",
   "type.builtin", "trait", "keyword", "keyword.directive", "string",
   "character", "number", "boolean", "constant", "constant.builtin",
   "comment", "operator", "punctuation", "variable", "parameter",
   "field", "macro"]

/-- The `Token` record handed across the FFI boundary (`#[repr(C)]`):
`start`/`end` byte offsets (u32), a u16 kind code, and a pad field.
The Rust field `end` is a Lean keyword, so it is named `endByte`. -/
structure Token where
  start : Nat
  endByte : Nat
  kind_id : Nat
  pad : Nat
deriving DecidableEq, Repr

/-- Supported grammars; the tree-sitter `Language` values are opaque. -/
inductive Lang where
  | rust
  | c
  | python
  | odin
deriving DecidableEq, Repr

/-- The inline `match lang_id` used by `ts_get_tokens`
(0 → Rust, 1 → C, 2 → Python, 3 → Odin, otherwise fail). -/
def inline_language (lang_id : Int) : Option Lang :=
  if lang_id = 0 then some Lang.rust
  else if lang_id = 1 then some Lang.c
  else if lang_id = 2 then some Lang.python
  else if lang_id = 3 then some Lang.odin
  else none

/-- `get_language` from the source, used by `ts_get_highlight_tokens`
and `ts_parse`. -/
def get_language (lang_id : Int) : Option Lang :=
  if lang_id = 0 then some Lang.rust
  else if lang_id = 1 then some Lang.c
  else if lang_id = 2 then some Lang.python
  else if lang_id = 3 then some Lang.odin
  else none

/-- The per-language highlight query documents (opaque contents; the
query text itself is data consumed by the external query engine). -/
inductive QueryDoc where
  | rustQ
  | cQ
  | pythonQ
  | odinQ
deriving DecidableEq, Repr

/-- The `match lang_id` selecting the query document inside
`ts_get_highlight_tokens`. -/
def query_source (lang_id : Int) : Option QueryDoc :=
  if lang_id = 0 then some QueryDoc.rustQ
  else if lang_id = 1 then some QueryDoc.cQ
  else if lang_id = 2 then some QueryDoc.pythonQ
  else if lang_id = 3 then some QueryDoc.odinQ
  else none

/-- Classification of the `*const c_char` source argument at the FFI
boundary: a null pointer, a C string whose bytes are not valid UTF-8
(`CStr::to_str` fails), or a valid decoded string. -/
inductive CSource where
  | null
  | invalidUtf8
  | valid (code : String)
deriving DecidableEq, Repr

/-- Abstract syntax-tree node delivered by the external tree-sitter
parser: a grammar-defined kind name, a byte span, and children. -/
inductive Node where
  | mk (kind : String) (startByte endByte : Nat) (children : List Node)

def Node.kindName : Node → String
  | .mk k _ _ _ => k

def Node.startByte : Node → Nat
  | .mk _ s _ _ => s

def Node.endByte : Node → Nat
  | .mk _ _ e _ => e

def Node.children : Node → List Node
  | .mk _ _ _ cs => cs

mutual

def nsize : Node → Nat
  | .mk _ _ _ cs => 1 + lsize cs

def lsize : List Node → Nat
  | [] => 0
  | c :: cs => nsize c + lsize cs

end

theorem lsize_append (l₁ l₂ : List Node) :
    lsize (l₁ ++ l₂) = lsize l₁ + lsize l₂ := by
  induction l₁ with
  | nil => simp [lsize]
  | cons c cs ih => simp [lsize, ih]; omega

theorem lsize_reverse (l : List Node) : lsize l.reverse = lsize l := by
  induction l with
  | nil => rfl
  | cons c cs ih => simp [List.reverse_cons, lsize_append, lsize, nsize, ih]; omega

theorem nsize_pos (n : Node) : 0 < nsize n := by
  cases n with
  | mk k s e cs => simp [nsize]

/-- Span normalization applied by the structural tokenizer before
emission: cast the node's byte offsets to u32, clamp each to the source
length, swap when the end precedes the start, and classify the node's
grammar kind name with the hash fallback. -/
def clampToken (srcLen : Nat) (n : Node) : Token :=
  let start0 := n.startByte % 2 ^ 32
  let end0 := n.endByte % 2 ^ 32
  let start1 := if start0 > srcLen then srcLen else start0
  let end1 := if end0 > srcLen then srcLen else end0
  if end1 < start1 then ⟨end1, start1, hash_kind n.kindName, 0⟩
  else ⟨start1, end1, hash_kind n.kindName, 0⟩

/-- The explicit-stack tree walk of `ts_get_tokens`: pop a node; a node
with zero children emits one token; otherwise its children are pushed
(child 0 first, so the last child is popped next). -/
def tsTokensLoop (srcLen : Nat) : List Node → List Token → List Token
  | [], acc => acc
  | n :: rest, acc =>
    if n.children.isEmpty then
      tsTokensLoop srcLen rest (acc ++ [clampToken srcLen n])
    else
      tsTokensLoop srcLen (n.children.reverse ++ rest) acc
termination_by stack _ => lsize stack
decreasing_by
  · have := nsize_pos n
    simp [lsize]
    omega
  · cases n with
    | mk k s e cs =>
      simp [lsize_append, lsize_reverse, lsize, nsize, Node.children]

/-- The token list `ts_get_tokens` builds on its success path. -/
def structuralTokens (srcLen : Nat) (root : Node) : List Token :=
  tsTokensLoop srcLen [root] []

/-- Structural tokenization entry point (`ts_get_tokens`), with the
external parser modelled by oracle inputs: `attachFails` is the result
of `parser.set_language`, `parseResult` the result of `parser.parse`.
`none` models returning 0 without writing `*out_tokens`; `some ts`
models writing the buffer and returning its length. -/
def ts_get_tokens (source : CSource) (lang_id : Int) (outNull : Bool)
    (attachFails : Bool) (parseResult : Option Node) :
    Option (List Token) :=
  if outNull then none
  else
    match source with
    | .null => none
    | .invalidUtf8 => none
    | .valid code =>
      match inline_language lang_id with
      | none => none
      | some _lang =>
        if attachFails then none
        else
          match parseResult with
          | none => none
          | some tree =>
            some (structuralTokens ((utf8Bytes code).length % 2 ^ 32) tree)

/-- A query capture delivered by the external query engine: the
captured node's byte span and the capture's declared name (the source
reads the name from `query.capture_names()[cap.index]`). -/
structure Capture where
  startByte : Nat
  endByte : Nat
  name : String
deriving DecidableEq, Repr

/-- Emission of one capture in `ts_get_highlight_tokens`: the raw byte
span cast to u32 (no clamping, no swapping) and `hash_kind` applied to
the capture name. -/
def captureToken (c : Capture) : Token :=
  ⟨c.startByte % 2 ^ 32, c.endByte % 2 ^ 32, hash_kind c.name, 0⟩

/-- The match/capture loop of `ts_get_highlight_tokens`: for every
match, for every capture within it, push one token. -/
def highlightTokens : List (List Capture) → List Token
  | [] => []
  | m :: ms => m.map captureToken ++ highlightTokens ms

/-- Query-based highlighting entry point (`ts_get_highlight_tokens`).
Oracle inputs: `parseResult` for `parser.parse` (the `set_language`
error is ignored by this entry point — `.ok()` discards it), `queryOk`
for `Query::new`, and `matches` for the query-cursor iteration. -/
def ts_get_highlight_tokens (source : CSource) (lang_id : Int)
    (outNull : Bool) (parseResult : Option Node) (queryOk : Bool)
    (qmatches : List (List Capture)) : Option (List Token) :=
  if outNull then none
  else
    match source with
    | .null => none
    | .invalidUtf8 => none
    | .valid _code =>
      match get_language lang_id with
      | none => none
      | some _lang =>
        match parseResult with
        | none => none
        | some _tree =>
          match query_source lang_id with
          | none => none
          | some _q =>
            if queryOk then some (highlightTokens qmatches) else none

/-- The length value an entry point returns across the FFI boundary:
0 on a failure (`none`), the buffer length otherwise. -/
def returnedLen : Option (List Token) → Nat
  | none => 0
  | some ts => ts.length

/-- `ts_free_tokens`, modelled by the list of (pointer, length)
deallocations it performs: a null pointer frees nothing. -/
def ts_free_tokens (ptr : Option Nat) (len : Nat) : List (Nat × Nat) :=
  match ptr with
  | none => []
  | some p => [(p, len)]

/-- `ts_free_result`, modelled by the list of pointers it frees: the
tree box when non-null, then the s-expression string when non-null. -/
def ts_free_result (tree_ptr root_sexpr : Option Nat) : List Nat :=
  (match tree_ptr with
   | none => []
   | some p => [p]) ++
  (match root_sexpr with
   | none => []
   | some p => [p])

/-- The `TSResult` record returned by `ts_parse`: an optional tree
handle (null modelled as `none`) and the returned C string. -/
structure TSResultM where
  tree_ptr : Option Node
  root_sexpr : String

/-- Full parse entry point (`ts_parse`). `decoded` is the result of
`CStr::to_str` (`none` models a decode failure; the source substitutes
`""` via `unwrap_or`). The external parser is an oracle function from
the decoded code, `toSexp` the external `Node::to_sexp`. The debug
file write is a side effect not modelled here. -/
def ts_parse (decoded : Option String) (lang_id : Int)
    (attachFails : Bool) (parse : String → Option Node)
    (toSexp : Node → String) : TSResultM :=
  let code := decoded.getD ""
  match get_language lang_id with
  | none => ⟨none, "(unsupported)"⟩
  | some _language =>
    if attachFails then ⟨none, "(language error)"⟩
    else
      match parse code with
      | none => ⟨none, "(parse failed)"⟩
      | some tree => ⟨some tree, toSexp tree⟩

mutual

/-- All nodes of a tree in preorder (the node, then its subtrees). -/
def allNodes : Node → List Node
  | .mk k s e cs => Node.mk k s e cs :: allNodesList cs

def allNodesList : List Node → List Node
  | [] => []
  | c :: cs => allNodes c ++ allNodesList cs

end

/-- The leaf nodes of a tree (zero children), in source order. -/
def leafNodes (t : Node) : List Node :=
  (allNodes t).filter (fun n => n.children.isEmpty)

/-- The leaf nodes of a forest, in source order. -/
def leafNodesList (l : List Node) : List Node :=
  (allNodesList l).filter (fun n => n.children.isEmpty)

/-- Leaves emitted by the stack traversal for a given work stack:
each stack entry contributes its leaves in reverse source order. -/
def revLeavesStack : List Node → List Node
  | [] => []
  | n :: rest => (leafNodes n).reverse ++ revLeavesStack rest

theorem leafNodes_of_leaf (n : Node) (h : n.children.isEmpty) :
    leafNodes n = [n] := by
  cases n with
  | mk k s e cs =>
    simp [Node.children] at h
    subst h
    simp [leafNodes, allNodes, allNodesList, Node.children]

theorem leafNodes_of_internal (n : Node) (h : ¬ n.children.isEmpty) :
    leafNodes n = leafNodesList n.children := by
  cases n with
  | mk k s e cs =>
    simp only [Node.children] at h ⊢
    have h2 : cs.isEmpty = false := by
      cases cs with
      | nil => simp at h
      | cons a l => rfl
    simp [leafNodes, allNodes, leafNodesList, Node.children, h2]

theorem allNodesList_append (l₁ l₂ : List Node) :
    allNodesList (l₁ ++ l₂) = allNodesList l₁ ++ allNodesList l₂ := by
  induction l₁ with
  | nil => simp [allNodesList]
  | cons c cs ih => simp [allNodesList, ih]

theorem leafNodesList_append (l₁ l₂ : List Node) :
    leafNodesList (l₁ ++ l₂) = leafNodesList l₁ ++ leafNodesList l₂ := by
  simp [leafNodesList, allNodesList_append, List.filter_append]

theorem revLeavesStack_append (l₁ l₂ : List Node) :
    revLeavesStack (l₁ ++ l₂) = revLeavesStack l₁ ++ revLeavesStack l₂ := by
  induction l₁ with
  | nil => simp [revLeavesStack]
  | cons c cs ih => simp [revLeavesStack, ih]

theorem revLeavesStack_singleton (n : Node) :
    revLeavesStack [n] = (leafNodes n).reverse := by
  simp [revLeavesStack]

theorem leafNodesList_cons (c : Node) (cs : List Node) :
    leafNodesList (c :: cs) = leafNodes c ++ leafNodesList cs := by
  simp [leafNodesList, leafNodes, allNodesList, List.filter_append]

theorem revLeavesStack_reverse (cs : List Node) :
    revLeavesStack cs.reverse = (leafNodesList cs).reverse := by
  induction cs with
  | nil => simp [revLeavesStack, leafNodesList, allNodesList]
  | cons c cs ih =>
    simp [List.reverse_cons, revLeavesStack_append, ih,
      revLeavesStack_singleton, leafNodesList_cons]

theorem tsTokensLoop_spec_aux (srcLen : Nat) :
    ∀ (k : Nat) (stack : List Node) (acc : List Token), lsize stack ≤ k →
      tsTokensLoop srcLen stack acc =
        acc ++ (revLeavesStack stack).map (clampToken srcLen) := by
  intro k
  induction k with
  | zero =>
    intro stack acc hle
    cases stack with
    | nil => simp [tsTokensLoop, revLeavesStack]
    | cons n rest =>
      exfalso
      have := nsize_pos n
      simp [lsize] at hle
      omega
  | succ k ih =>
    intro stack acc hle
    cases stack with
    | nil => simp [tsTokensLoop, revLeavesStack]
    | cons n rest =>
      by_cases h : n.children.isEmpty
      · have hr : lsize rest ≤ k := by
          have := nsize_pos n
          simp [lsize] at hle
          omega
        rw [show tsTokensLoop srcLen (n :: rest) acc =
              tsTokensLoop srcLen rest (acc ++ [clampToken srcLen n]) from by
            simp [tsTokensLoop, h]]
        rw [ih rest (acc ++ [clampToken srcLen n]) hr]
        simp [revLeavesStack, leafNodes_of_leaf n h]
      · have hr : lsize (n.children.reverse ++ rest) ≤ k := by
          cases n with
          | mk k2 s e cs =>
            simp [lsize_append, lsize_reverse, lsize, nsize,
              Node.children] at hle ⊢
            omega
        rw [show tsTokensLoop srcLen (n :: rest) acc =
              tsTokensLoop srcLen (n.children.reverse ++ rest) acc from by
            simp [tsTokensLoop, h]]
        rw [ih (n.children.reverse ++ rest) acc hr]
        simp [revLeavesStack_append, revLeavesStack_reverse,
          revLeavesStack, leafNodes_of_internal n h]

/-- The stack traversal of `ts_get_tokens` emits exactly the clamped
tokens of the leaves reachable from the work stack, appended to the
accumulator, each stack entry contributing its leaves in reverse
source order. -/
theorem tsTokensLoop_spec (srcLen : Nat) (stack : List Node)
    (acc : List Token) :
    tsTokensLoop srcLen stack acc =
      acc ++ (revLeavesStack stack).map (clampToken srcLen) :=
  tsTokensLoop_spec_aux srcLen (lsize stack) stack acc (Nat.le_refl _)

/-- `structuralTokens` emits exactly one clamped token per leaf node,
in reverse source order; no internal node contributes. -/
theorem structuralTokens_spec (srcLen : Nat) (root : Node) :
    structuralTokens srcLen root =
      ((leafNodes root).reverse).map (clampToken srcLen) := by
  rw [structuralTokens, tsTokensLoop_spec]
  simp [revLeavesStack]

theorem clampToken_le (srcLen : Nat) (n : Node) :
    (clampToken srcLen n).start ≤ (clampToken srcLen n).endByte ∧
      (clampToken srcLen n).endByte ≤ srcLen := by
  simp only [clampToken]
  split_ifs <;> simp_all <;> omega

theorem mem_leafNodes_isEmpty (root : Node) (n : Node)
    (h : n ∈ leafNodes root) : n.children.isEmpty = true := by
  rw [leafNodes, List.mem_filter] at h
  exact h.2

theorem foldl_eq_fnv1aSpecStep (l : List Nat) :
    ∀ h0 : Nat,
      l.foldl (fun h b => ((h ^^^ b) * 16777619) % 2 ^ 32) h0 =
        fnv1aSpecStep h0 l := by
  induction l with
  | nil => intro h0; rfl
  | cons b bs ih => intro h0; exact ih (((h0 ^^^ b) * 16777619) % 2 ^ 32)

theorem mem_highlightTokens (ms : List (List Capture)) (tok : Token)
    (h : tok ∈ highlightTokens ms) :
    ∃ m ∈ ms, ∃ c ∈ m, tok = captureToken c := by
  induction ms with
  | nil => simp [highlightTokens] at h
  | cons m ms ih =>
    rw [highlightTokens, List.mem_append] at h
    rcases h with h | h
    · rcases List.mem_map.mp h with ⟨c, hc, rfl⟩
      exact ⟨m, List.mem_cons_self m ms, c, hc, rfl⟩
    · rcases ih h with ⟨m2, hm2, c, hc, rfl⟩
      exact ⟨m2, List.mem_cons_of_mem m hm2, c, hc, rfl⟩

theorem map_capture_fallback (s : String) (h : s ∉ canonicalNames) :
    map_capture_to_kind s = hash_kind s := by
  simp only [canonicalNames, List.mem_cons, List.mem_singleton,
    not_or] at h
  obtain ⟨h1, h2, h3, h4, h5, h6, h7, h8, h9, h10, h11, h12, h13, h14,
    h15, h16, h17, h18, h19, h20, h21⟩ := h
  simp [map_capture_to_kind, h1, h2, h3, h4, h5, h6, h7, h8, h9, h10,
    h11, h12, h13, h14, h15, h16, h17, h18, h19, h20, h21]

theorem inline_language_none_of_unrecognized (lang_id : Int)
    (h : ¬(lang_id = 0 ∨ lang_id = 1 ∨ lang_id = 2 ∨ lang_id = 3)) :
    inline_language lang_id = none := by
  push_neg at h
  simp [inline_language, h.1, h.2.1, h.2.2.1, h.2.2.2]

theorem get_language_none_of_unrecognized (lang_id : Int)
    (h : ¬(lang_id = 0 ∨ lang_id = 1 ∨ lang_id = 2 ∨ lang_id = 3)) :
    get_language lang_id = none := by
  push_neg at h
  simp [get_language, h.1, h.2.1, h.2.2.1, h.2.2.2]

/-- Claim C3: for every input string, the fallback classification
computes the 32-bit FNV-1a hash of the UTF-8 bytes — seed 2166136261,
then for each byte XOR the byte into the accumulator and multiply by
16777619 modulo 2^32 — and returns the value masked with 0xFFFF; the
source's fold-and-mask agrees with the spec's step-recursion-and-
truncate description, and the result fits in 16 bits. -/
theorem hash_kind_is_fnv1a (s : String) :
    hash_kind s = hashKindSpec s ∧ hash_kind s < 2 ^ 16 := by
  have heq : hash_kind s = hashKindSpec s := by
    rw [hash_kind, hashKindSpec, foldl_eq_fnv1aSpecStep]
    have hmask : (0xFFFF : Nat) = 2 ^ 16 - 1 := by norm_num
    rw [hmask, Nat.and_pow_two_sub_one_eq_mod]
  refine ⟨heq, ?_⟩
  rw [heq, hashKindSpec]
  exact Nat.mod_lt _ (by norm_num)

/-- Claim C2: the canonical table maps each of the 21 fixed semantic
capture names to a code in 1..20; the codes are pairwise distinct
except that "constant" and "constant.builtin" share one code; every
name outside the table falls through to the FNV hash fallback. -/
theorem canonical_table_disjoint_codes :
    (map_capture_to_kind "function" = TOKEN_FUNCTION ∧
     map_capture_to_kind "function.call" = TOKEN_FUNCTION_CALL ∧
     map_capture_to_kind "function.decorator" = TOKEN_DECORATOR ∧
     map_capture_to_kind "type" = TOKEN_TYPE ∧
     map_capture_to_kind "type.builtin" = TOKEN_TYPE_BUILTIN ∧
     map_capture_to_kind "trait" = TOKEN_TRAIT ∧
     map_capture_to_kind "keyword" = TOKEN_KEYWORD ∧
     map_capture_to_kind "keyword.directive" = TOKEN_DIRECTIVE ∧
     map_capture_to_kind "string" = TOKEN_STRING ∧
     map_capture_to_kind "character" = TOKEN_CHARACTER ∧
     map_capture_to_kind "number" = TOKEN_NUMBER ∧
     map_capture_to_kind "boolean" = TOKEN_BOOLEAN ∧
     map_capture_to_kind "constant" = TOKEN_CONSTANT ∧
     map_capture_to_kind "constant.builtin" = TOKEN_CONSTANT ∧
     map_capture_to_kind "comment" = TOKEN_COMMENT ∧
     map_capture_to_kind "operator" = TOKEN_OPERATOR ∧
     map_capture_to_kind "punctuation" = TOKEN_PUNCTUATION ∧
     map_capture_to_kind "variable" = TOKEN_VARIABLE ∧
     map_capture_to_kind "parameter" = TOKEN_PARAMETER ∧
     map_capture_to_kind "field" = TOKEN_FIELD ∧
     map_capture_to_kind "macro" = TOKEN_MACRO_ ∧
     (∀ n ∈ canonicalNames,
        1 ≤ map_capture_to_kind n ∧ map_capture_to_kind n ≤ 20) ∧
     (∀ n₁ ∈ canonicalNames, ∀ n₂ ∈ canonicalNames,
        map_capture_to_kind n₁ = map_capture_to_kind n₂ →
          n₁ = n₂ ∨ (n₁ = "constant" ∧ n₂ = "constant.builtin") ∨
            (n₁ = "constant.builtin" ∧ n₂ = "constant"))) ∧
    (∀ s, s ∉ canonicalNames → map_capture_to_kind s = hash_kind s) :=
  ⟨by decide, map_capture_fallback⟩

/-- Witness for claim C2: a name outside the table, "identifier", is
classified by the hash fallback. -/
theorem canonical_table_disjoint_codes_witness :
    map_capture_to_kind "identifier" = hash_kind "identifier" :=
  canonical_table_disjoint_codes.2 "identifier" (by decide)

/-- Claim C1 (code bug): the query-based highlighter never consults the
canonical table — `map_capture_to_kind` is dead code, and the emitted
kind is `hash_kind` of the capture name. At the failing input, one
match capturing a node named "function" and one capturing
"function.call", the entry point emits kinds 16969 and 19209 (the FNV
fallback values), not the canonical codes 1 and 2 that the table in
the same module assigns to those names. -/
theorem highlight_bypasses_canonical_table :
    ts_get_highlight_tokens (CSource.valid "fn f() f()") 0 false
        (some (Node.mk "source_file" 0 10 [])) true
        [[⟨3, 4, "function"⟩], [⟨7, 8, "function.call"⟩]] =
      some [⟨3, 4, 16969, 0⟩, ⟨7, 8, 19209, 0⟩] ∧
    hash_kind "function" ≠ TOKEN_FUNCTION ∧
    hash_kind "function.call" ≠ TOKEN_FUNCTION_CALL ∧
    map_capture_to_kind "function" = TOKEN_FUNCTION ∧
    map_capture_to_kind "function.call" = TOKEN_FUNCTION_CALL :=
  ⟨by decide, by decide, by decide, by decide, by decide⟩

/-- Claim C8: releasing a null token buffer and releasing a TSResult
whose two fields are both null deallocate nothing. -/
theorem free_null_noop :
    ts_free_tokens none 0 = [] ∧ ts_free_result none none = [] :=
  ⟨rfl, rfl⟩

/-- Claim C10: the language mapping inlined in ts_get_tokens agrees
with get_language at every language id — 0 is Rust, 1 is C, 2 is
Python, 3 is Odin, and both reject every other id. -/
theorem inline_language_eq_get_language :
    (∀ lang_id : Int, inline_language lang_id = get_language lang_id) ∧
    inline_language 0 = some Lang.rust ∧
    inline_language 1 = some Lang.c ∧
    inline_language 2 = some Lang.python ∧
    inline_language 3 = some Lang.odin ∧
    (∀ lang_id : Int,
      ¬(lang_id = 0 ∨ lang_id = 1 ∨ lang_id = 2 ∨ lang_id = 3) →
        inline_language lang_id = none ∧ get_language lang_id = none) := by
  refine ⟨fun _ => rfl, rfl, rfl, rfl, rfl, fun lang_id h => ?_⟩
  exact ⟨inline_language_none_of_unrecognized lang_id h,
    get_language_none_of_unrecognized lang_id h⟩

/-- Witness for claim C10: both lookups reject language id 999. -/
theorem inline_language_eq_get_language_witness :
    inline_language 999 = none ∧ get_language 999 = none :=
  inline_language_eq_get_language.2.2.2.2.2 999 (by decide)

/-- Claim C5: structural tokenization emits exactly one token per leaf
node (zero children): its output is precisely the clamped-and-
classified map over the tree's leaves — in reverse source order, the
order the explicit stack visits them — so the token count equals the
leaf count, each token carries the leaf's clamped byte span and the
hash classifier applied to its grammar kind name, and internal nodes
(which are expanded onto the stack instead) never produce a token. -/
theorem structural_one_token_per_leaf (srcLen : Nat) (root : Node) :
    structuralTokens srcLen root =
        ((leafNodes root).reverse).map (clampToken srcLen) ∧
    (structuralTokens srcLen root).length = (leafNodes root).length ∧
    (∀ n ∈ leafNodes root, n.children.isEmpty = true) := by
  refine ⟨structuralTokens_spec srcLen root, ?_, ?_⟩
  · rw [structuralTokens_spec]
    simp
  · intro n hn
    exact mem_leafNodes_isEmpty root n hn

/-- Witness for claim C5: on a two-node tree the only listed leaf is
the identifier child, and it has no children. -/
theorem structural_one_token_per_leaf_witness :
    (Node.mk "identifier" 0 2 []).children.isEmpty = true :=
  (structural_one_token_per_leaf 2
      (Node.mk "source_file" 0 2 [Node.mk "identifier" 0 2 []])).2.2
    (Node.mk "identifier" 0 2 [])
    (by rw [show leafNodes
          (Node.mk "source_file" 0 2 [Node.mk "identifier" 0 2 []]) =
          [Node.mk "identifier" 0 2 []] from rfl]
        exact List.mem_singleton.mpr rfl)

/-- Claim C4 (counterexample): the claim asserts clamping and swap
normalization for both entry points, but the query-based path emits
the capture's raw byte span: with the 3-byte source "abc" and a
capture reported at bytes 5..10, the emitted token ends past the end
of the source. -/
theorem highlight_tokens_unclamped :
    ts_get_highlight_tokens (CSource.valid "abc") 0 false
        (some (Node.mk "source_file" 0 3 [])) true
        [[⟨5, 10, "variable"⟩]] =
      some [⟨5, 10, 21253, 0⟩] ∧
    ¬(10 ≤ (utf8Bytes "abc").length) :=
  ⟨by decide, by decide⟩

/-- Claim C4 (amended): every token emitted by the structural entry
point satisfies start ≤ end ≤ byte length of the source, with the end
clamped and the pair swapped before emission; the query-based entry
point emits each capture's raw span (u32-cast only), so its tokens
satisfy the invariant exactly when the query engine reports spans
with start ≤ end ≤ source length and end below 2^32. -/
theorem token_span_invariant :
    (∀ (code : String) (lang_id : Int) (att : Bool) (pr : Option Node)
        (ts : List Token),
        ts_get_tokens (CSource.valid code) lang_id false att pr =
          some ts →
        ∀ tok ∈ ts, tok.start ≤ tok.endByte ∧
          tok.endByte ≤ (utf8Bytes code).length) ∧
    (∀ (code : String) (lang_id : Int) (pr : Option Node) (q : Bool)
        (ms : List (List Capture)) (ts : List Token),
        (∀ m ∈ ms, ∀ c ∈ m, c.startByte ≤ c.endByte ∧
          c.endByte ≤ (utf8Bytes code).length ∧ c.endByte < 2 ^ 32) →
        ts_get_highlight_tokens (CSource.valid code) lang_id false pr
          q ms = some ts →
        ∀ tok ∈ ts, tok.start ≤ tok.endByte ∧
          tok.endByte ≤ (utf8Bytes code).length) := by
  constructor
  · intro code lang_id att pr ts hsome tok htok
    simp only [ts_get_tokens] at hsome
    cases hl : inline_language lang_id with
    | none => simp [hl] at hsome
    | some l =>
      simp only [hl] at hsome
      cases att with
      | true => simp at hsome
      | false =>
        cases pr with
        | none => simp at hsome
        | some tree =>
          simp only [Bool.false_eq_true, if_false, Option.some.injEq]
            at hsome
          subst hsome
          rw [structuralTokens_spec] at htok
          rcases List.mem_map.mp htok with ⟨n, hn, rfl⟩
          have h := clampToken_le ((utf8Bytes code).length % 2 ^ 32) n
          exact ⟨h.1, le_trans h.2 (Nat.mod_le _ _)⟩
  · intro code lang_id pr q ms ts hbound hsome tok htok
    simp only [ts_get_highlight_tokens] at hsome
    cases hg : get_language lang_id with
    | none => simp [hg] at hsome
    | some l =>
      simp only [hg] at hsome
      cases pr with
      | none => simp at hsome
      | some tree =>
        cases hq : query_source lang_id with
        | none => simp [hq] at hsome
        | some qd =>
          simp only [hq] at hsome
          cases q with
          | false => simp at hsome
          | true =>
            simp at hsome
            subst hsome
            rcases mem_highlightTokens ms tok htok with ⟨m, hm, c, hc, rfl⟩
            rcases hbound m hm c hc with ⟨h1, h2, h3⟩
            simp only [captureToken]
            constructor
            · omega
            · omega

/-- Witness for claim C4 (amended): a leaf spanning bytes 0..5 of the
2-byte source "ab" is clamped to span 0..2, within bounds. -/
theorem token_span_invariant_witness :
    (⟨0, 2, hash_kind "identifier", 0⟩ : Token).start ≤
        (⟨0, 2, hash_kind "identifier", 0⟩ : Token).endByte ∧
      (⟨0, 2, hash_kind "identifier", 0⟩ : Token).endByte ≤
        (utf8Bytes "ab").length :=
  token_span_invariant.1 "ab" 0 false (some (Node.mk "identifier" 0 5 []))
    [⟨0, 2, hash_kind "identifier", 0⟩]
    (by rw [show ts_get_tokens (CSource.valid "ab") 0 false false
            (some (Node.mk "identifier" 0 5 [])) =
          some (structuralTokens 2 (Node.mk "identifier" 0 5 []))
          from rfl, structuralTokens_spec]
        rfl)
    ⟨0, 2, hash_kind "identifier", 0⟩
    (List.mem_singleton.mpr rfl)

/-- Claim C6: both tokenization entry points return a buffer of length
0 on every input validation failure — null source pointer, non-UTF-8
content, parser failure, or unrecognized language id — and the two
language lookups recognize exactly the ids 0, 1, 2, 3; any other id
yields length 0 from either tokenizer. -/
theorem tokenizers_empty_on_failure :
    (∀ (lang_id : Int) (outNull att : Bool) (pr : Option Node),
      returnedLen (ts_get_tokens CSource.null lang_id outNull att pr)
        = 0) ∧
    (∀ (lang_id : Int) (outNull att : Bool) (pr : Option Node),
      returnedLen
        (ts_get_tokens CSource.invalidUtf8 lang_id outNull att pr)
        = 0) ∧
    (∀ (src : CSource) (lang_id : Int) (outNull att : Bool),
      returnedLen (ts_get_tokens src lang_id outNull att none) = 0) ∧
    (∀ (lang_id : Int) (outNull q : Bool) (ms : List (List Capture))
        (pr : Option Node),
      returnedLen
        (ts_get_highlight_tokens CSource.null lang_id outNull pr q ms)
        = 0) ∧
    (∀ (lang_id : Int) (outNull q : Bool) (ms : List (List Capture))
        (pr : Option Node),
      returnedLen (ts_get_highlight_tokens CSource.invalidUtf8
        lang_id outNull pr q ms) = 0) ∧
    (∀ (src : CSource) (lang_id : Int) (outNull q : Bool)
        (ms : List (List Capture)),
      returnedLen
        (ts_get_highlight_tokens src lang_id outNull none q ms) = 0) ∧
    (∀ lang_id : Int, (inline_language lang_id).isSome ↔
      (lang_id = 0 ∨ lang_id = 1 ∨ lang_id = 2 ∨ lang_id = 3)) ∧
    (∀ lang_id : Int, (get_language lang_id).isSome ↔
      (lang_id = 0 ∨ lang_id = 1 ∨ lang_id = 2 ∨ lang_id = 3)) ∧
    (∀ (src : CSource) (outNull att : Bool) (pr : Option Node)
        (q : Bool) (ms : List (List Capture)) (lang_id : Int),
      ¬(lang_id = 0 ∨ lang_id = 1 ∨ lang_id = 2 ∨ lang_id = 3) →
      returnedLen (ts_get_tokens src lang_id outNull att pr) = 0 ∧
      returnedLen
        (ts_get_highlight_tokens src lang_id outNull pr q ms) = 0) := by
  refine ⟨?_, ?_, ?_, ?_, ?_, ?_, ?_, ?_, ?_⟩
  · intro lang_id outNull att pr
    cases outNull <;> simp [ts_get_tokens, returnedLen]
  · intro lang_id outNull att pr
    cases outNull <;> simp [ts_get_tokens, returnedLen]
  · intro src lang_id outNull att
    cases src <;> cases outNull <;> cases att <;>
      cases hl : inline_language lang_id <;>
      simp [ts_get_tokens, returnedLen, hl]
  · intro lang_id outNull q ms pr
    cases outNull <;> simp [ts_get_highlight_tokens, returnedLen]
  · intro lang_id outNull q ms pr
    cases outNull <;> simp [ts_get_highlight_tokens, returnedLen]
  · intro src lang_id outNull q ms
    cases src <;> cases outNull <;> cases q <;>
      cases hg : get_language lang_id <;>
      simp [ts_get_highlight_tokens, returnedLen, hg]
  · intro lang_id
    simp only [inline_language]
    split_ifs with h0 h1 h2 h3 <;> simp_all
  · intro lang_id
    simp only [get_language]
    split_ifs with h0 h1 h2 h3 <;> simp_all
  · intro src outNull att pr q ms lang_id h
    have h1 := inline_language_none_of_unrecognized lang_id h
    have h2 := get_language_none_of_unrecognized lang_id h
    constructor
    · cases src <;> cases outNull <;> cases att <;>
        simp [ts_get_tokens, returnedLen, h1]
    · cases src <;> cases outNull <;> cases pr <;>
        simp [ts_get_highlight_tokens, returnedLen, h2]

/-- Witness for claim C6: the unsupported language id 999 yields a
buffer of length 0 from both tokenizers. -/
theorem tokenizers_empty_on_failure_witness :
    returnedLen
        (ts_get_tokens (CSource.valid "x") 999 false false none) = 0 ∧
    returnedLen (ts_get_highlight_tokens (CSource.valid "x") 999 false
        none true []) = 0 :=
  tokenizers_empty_on_failure.2.2.2.2.2.2.2.2 (CSource.valid "x")
    false false none true [] 999 (by decide)

/-- Claim C7: ts_parse reports failure as a null tree handle together
with exactly one of the three fixed placeholder strings —
"(unsupported)" for an unknown language id, "(language error)" when
attaching the grammar fails, "(parse failed)" when the parser returns
no tree — and on success returns the boxed tree and the root node's
s-expression. -/
theorem ts_parse_failure_taxonomy (decoded : Option String)
    (lang_id : Int) (att : Bool) (parse : String → Option Node)
    (toSexp : Node → String) :
    (get_language lang_id = none →
      ts_parse decoded lang_id att parse toSexp =
        ⟨none, "(unsupported)"⟩) ∧
    (∀ l, get_language lang_id = some l → att = true →
      ts_parse decoded lang_id att parse toSexp =
        ⟨none, "(language error)"⟩) ∧
    (∀ l, get_language lang_id = some l → att = false →
      parse (decoded.getD "") = none →
      ts_parse decoded lang_id att parse toSexp =
        ⟨none, "(parse failed)"⟩) ∧
    (∀ l t, get_language lang_id = some l → att = false →
      parse (decoded.getD "") = some t →
      ts_parse decoded lang_id att parse toSexp =
        ⟨some t, toSexp t⟩) := by
  refine ⟨?_, ?_, ?_, ?_⟩
  · intro h
    simp [ts_parse, h]
  · intro l hl hatt
    simp [ts_parse, hl, hatt]
  · intro l hl hatt hp
    simp [ts_parse, hl, hatt, hp]
  · intro l t hl hatt hp
    simp [ts_parse, hl, hatt, hp]

/-- Witness for claim C7: language id 999 makes ts_parse return a null
tree handle and the "(unsupported)" placeholder. -/
theorem ts_parse_failure_taxonomy_witness :
    ts_parse (some "int x;") 999 false (fun _ => none)
        (fun _ => "tree") = ⟨none, "(unsupported)"⟩ :=
  (ts_parse_failure_taxonomy (some "int x;") 999 false (fun _ => none)
    (fun _ => "tree")).1 (by decide)

/-- Claim C9: on every failure path of either tokenizer — null source,
null out-parameter, non-UTF-8 content, unrecognized language id,
grammar attach failure (structural path), parser failure, or query
compilation failure (query path) — the function returns without
writing the out-pointer, modelled as the `none` result (the only
writing outcome is `some buffer`), whose returned length is 0. -/
theorem failure_paths_return_zero_without_write :
    (∀ (src : CSource) (lang_id : Int) (outNull att : Bool)
        (pr : Option Node),
      (src = CSource.null ∨ src = CSource.invalidUtf8 ∨
        outNull = true ∨ inline_language lang_id = none ∨
        att = true ∨ pr = none) →
      ts_get_tokens src lang_id outNull att pr = none) ∧
    (∀ (src : CSource) (lang_id : Int) (outNull : Bool)
        (pr : Option Node) (q : Bool) (ms : List (List Capture)),
      (src = CSource.null ∨ src = CSource.invalidUtf8 ∨
        outNull = true ∨ get_language lang_id = none ∨
        pr = none ∨ q = false) →
      ts_get_highlight_tokens src lang_id outNull pr q ms = none) ∧
    returnedLen none = 0 := by
  refine ⟨?_, ?_, rfl⟩
  · intro src lang_id outNull att pr h
    rcases h with rfl | rfl | rfl | hl | rfl | rfl
    · cases outNull <;> simp [ts_get_tokens]
    · cases outNull <;> simp [ts_get_tokens]
    · simp [ts_get_tokens]
    · cases src <;> cases outNull <;> cases att <;>
        simp [ts_get_tokens, hl]
    · cases src <;> cases outNull <;>
        cases hl : inline_language lang_id <;>
        simp [ts_get_tokens, hl]
    · cases src <;> cases outNull <;> cases att <;>
        cases hl : inline_language lang_id <;>
        simp [ts_get_tokens, hl]
  · intro src lang_id outNull pr q ms h
    rcases h with rfl | rfl | rfl | hg | rfl | rfl
    · cases outNull <;> simp [ts_get_highlight_tokens]
    · cases outNull <;> simp [ts_get_highlight_tokens]
    · simp [ts_get_highlight_tokens]
    · cases src <;> cases outNull <;> cases q <;> cases pr <;>
        simp [ts_get_highlight_tokens, hg]
    · cases src <;> cases outNull <;> cases q <;>
        cases hg : get_language lang_id <;>
        simp [ts_get_highlight_tokens, hg]
    · cases src <;> cases outNull <;> cases pr <;>
        cases hg : get_language lang_id <;>
        cases hq : query_source lang_id <;>
        simp [ts_get_highlight_tokens, hg, hq]

/-- Witness for claim C9: a null source pointer makes the structural
tokenizer return without writing its out-parameter. -/
theorem failure_paths_return_zero_without_write_witness :
    ts_get_tokens CSource.null 0 false false none = none :=
  failure_paths_return_zero_without_write.1 CSource.null 0 false false
    none (Or.inl rfl)

end TSGateway
